import Mathlib

/-!
Verification of the Ultralight-Digital-Human pipeline core against its
natural-language specification.

The Python sources are shallowly embedded:

* `inference.py` — `get_audio_features` (audio feature windowing), the
  landmark-driven face-crop bounds computation, the ping-pong reference
  frame index update, and the patch paste-back.
* `agent/dh_streamer_async.py` — the `AsyncUDPStreamer` task manager as a
  state machine (`submit` / scheduler / monitor steps).
* `agent/dh_system.py` — the text-generation producer loop's queue
  behaviour.
* `agent/dh_clients.py` — `ActionManager.analyze_text_action`.
* `agent/dh_generator.py` — the generated smart-inference script's
  action-range frame index selection.

Machine integers are modelled as `Int`/`Nat`; Python list / numpy first-axis
slicing is modelled explicitly (including negative stop indices); queues are
lists; the stochastic `random.choice` is modelled by passing the random draw
as an explicit parameter.
-/

/-! ## FeatureAligner: `get_audio_features` (inference.py lines 33-49) -/

/-- Python/numpy first-axis slice `xs[a:b]` for a nonnegative start `a`
(the code clamps `left` to `0` before slicing) and an arbitrary integer
stop `b`: a negative stop counts from the end, and the result is empty
when the effective stop does not exceed the start. -/
def pySlice {α : Type} (xs : List α) (a : Nat) (b : Int) : List α :=
  let n : Int := xs.length
  let stop : Int := if b < 0 then max 0 (n + b) else min n b
  (xs.take stop.toNat).drop a

/-- `torch.zeros_like` on a stack of rows: every entry becomes `0`,
shapes are kept. -/
def zerosLike (rows : List (List Int)) : List (List Int) :=
  rows.map (fun r => r.map (fun _ => 0))

/-- `get_audio_features(features, index)` from `inference.py`:
`left = index-4`, `right = index+4`; clamp `left` at `0` recording
`pad_left`, clamp `right` at `len` recording `pad_right`; slice; then
prepend `zeros_like(auds[:pad_left])` and append
`zeros_like(auds[:pad_right])` (the latter taken from the already
left-padded tensor, exactly as the code reassigns `auds`). -/
def get_audio_features (features : List (List Int)) (index : Int) : List (List Int) :=
  let len : Int := features.length
  let left0 : Int := index - 4
  let right0 : Int := index + 4
  let padLeft : Int := if left0 < 0 then -left0 else 0
  let left : Int := if left0 < 0 then 0 else left0
  let padRight : Int := if right0 > len then right0 - len else 0
  let right : Int := if right0 > len then len else right0
  let auds := pySlice features left.toNat right
  let auds := if 0 < padLeft then zerosLike (auds.take padLeft.toNat) ++ auds else auds
  if 0 < padRight then auds ++ zerosLike (auds.take padRight.toNat) else auds

/-- A zero row of width `d`. -/
def zeroRow (d : Nat) : List Int := List.replicate d 0

theorem zerosLike_eq_replicate (rows : List (List Int)) (d : Nat)
    (hw : ∀ r ∈ rows, r.length = d) :
    zerosLike rows = List.replicate rows.length (zeroRow d) := by
  induction rows with
  | nil => rfl
  | cons r rest ih =>
    have hr : r.length = d := hw r (by simp)
    have : r.map (fun _ => (0 : Int)) = zeroRow d := by
      simp [zeroRow, List.map_const', hr]
    simp only [zerosLike, List.map_cons, List.length_cons, List.replicate_succ]
    refine congrArg₂ List.cons this ?_
    exact ih (fun x hx => hw x (by simp [hx]))

theorem zerosLike_length (rows : List (List Int)) :
    (zerosLike rows).length = rows.length := by
  simp [zerosLike]

/-- Proof-side restatement of `get_audio_features` at a nonnegative index,
with all index arithmetic in `Nat` (truncating subtraction reproduces the
clamping). -/
def gafNat (features : List (List Int)) (i : Nat) : List (List Int) :=
  let auds := (features.take (min features.length (i + 4))).drop (i - 4)
  let auds2 := if i < 4 then zerosLike (auds.take (4 - i)) ++ auds else auds
  if features.length < i + 4 then
    auds2 ++ zerosLike (auds2.take (i + 4 - features.length))
  else auds2

theorem get_audio_features_eq_gafNat (features : List (List Int)) (i : Nat) :
    get_audio_features features (i : Int) = gafNat features i := by
  by_cases h4 : i < 4 <;> by_cases hl : features.length < i + 4 <;>
    simp only [get_audio_features, gafNat, pySlice]
  · simp only [eq_true (show (i : Int) - 4 < 0 by omega),
      eq_true (show (i : Int) + 4 > (features.length : Int) by omega),
      eq_true h4, eq_true hl, if_true,
      eq_false (show ¬((features.length : Int) < 0) by omega),
      eq_true (show (0 : Int) < -((i : Int) - 4) by omega),
      eq_true (show (0 : Int) < (i : Int) + 4 - (features.length : Int) by omega),
      if_false, Int.toNat_zero,
      show (-((i : Int) - 4)).toNat = 4 - i by omega,
      show ((i : Int) + 4 - (features.length : Int)).toNat = i + 4 - features.length by omega,
      show (min (features.length : Int) (features.length : Int)).toNat
        = features.length by omega,
      show min features.length (i + 4) = features.length by omega,
      show i - 4 = 0 by omega]
  · simp only [eq_true (show (i : Int) - 4 < 0 by omega),
      eq_false (show ¬((i : Int) + 4 > (features.length : Int)) by omega),
      eq_true h4, eq_false hl, if_true,
      eq_false (show ¬(((i : Int) + 4) < 0) by omega),
      eq_true (show (0 : Int) < -((i : Int) - 4) by omega),
      eq_false (show ¬((0 : Int) < (0 : Int)) by omega),
      if_false, Int.toNat_zero,
      show (-((i : Int) - 4)).toNat = 4 - i by omega,
      show (min (features.length : Int) ((i : Int) + 4)).toNat
        = min features.length (i + 4) by omega,
      show i - 4 = 0 by omega]
  · simp only [eq_false h4,
      eq_false (show ¬((i : Int) - 4 < 0) by omega),
      eq_true (show (i : Int) + 4 > (features.length : Int) by omega),
      eq_true hl, if_true,
      eq_false (show ¬((features.length : Int) < 0) by omega),
      eq_false (show ¬((0 : Int) < (0 : Int)) by omega),
      eq_true (show (0 : Int) < (i : Int) + 4 - (features.length : Int) by omega),
      if_false,
      show ((i : Int) - 4).toNat = i - 4 by omega,
      show ((i : Int) + 4 - (features.length : Int)).toNat = i + 4 - features.length by omega,
      show (min (features.length : Int) (features.length : Int)).toNat
        = features.length by omega,
      show min features.length (i + 4) = features.length by omega]
  · simp only [eq_false h4, eq_false hl,
      eq_false (show ¬((i : Int) - 4 < 0) by omega),
      eq_false (show ¬((i : Int) + 4 > (features.length : Int)) by omega),
      eq_false (show ¬(((i : Int) + 4) < 0) by omega),
      eq_false (show ¬((0 : Int) < (0 : Int)) by omega),
      if_true, if_false,
      show ((i : Int) - 4).toNat = i - 4 by omega,
      show (min (features.length : Int) ((i : Int) + 4)).toNat
        = min features.length (i + 4) by omega]

/-- C1, counterexample: on a feature array with a single row, at index 0,
`get_audio_features` returns 4 rows, not 8 — `zeros_like(auds[:pad])`
cannot produce more padding rows than the slice already has, so the
8-row invariant fails whenever the array has fewer than 8 rows. -/
theorem get_audio_features_short_input_not_eight :
    (get_audio_features [[1]] 0).length = 4 ∧
      (get_audio_features [[1]] 0).length ≠ 8 := by
  constructor <;> decide

/-- C1 (amended): for a feature array with at least 8 rows (all of width
`d`) and an index in `[0, len)` — the range the inference loop actually
uses — `get_audio_features` returns exactly
`features[max(0,index-4):min(len,index+4)]` with `max(0,4-index)` zero
rows prepended and `max(0,index+4-len)` zero rows appended, and the
result always has exactly 8 rows. -/
theorem get_audio_features_window (features : List (List Int)) (d : Nat) (index : Int)
    (hw : ∀ r ∈ features, r.length = d)
    (h0 : 0 ≤ index) (hidx : index < features.length) (h8 : 8 ≤ features.length) :
    get_audio_features features index =
      List.replicate (4 - index).toNat (zeroRow d)
        ++ (features.take (min features.length (index + 4).toNat)).drop (index - 4).toNat
        ++ List.replicate ((index + 4).toNat - features.length) (zeroRow d)
    ∧ (get_audio_features features index).length = 8 := by
  lift index to Nat using h0 with i
  have hidx' : i < features.length := by exact_mod_cast hidx
  rw [get_audio_features_eq_gafNat,
    show ((i : Int) + 4).toNat = i + 4 by omega,
    show ((i : Int) - 4).toNat = i - 4 by omega,
    show ((4 : Int) - (i : Int)).toNat = 4 - i by omega]
  have hstruct : gafNat features i =
      List.replicate (4 - i) (zeroRow d)
        ++ (features.take (min features.length (i + 4))).drop (i - 4)
        ++ List.replicate ((i + 4) - features.length) (zeroRow d) := by
    by_cases h4 : i < 4
    · have hnl : ¬ features.length < i + 4 := by omega
      simp only [gafNat, eq_true h4, eq_false hnl, if_true, if_false,
        show min features.length (i + 4) = i + 4 by omega,
        show i - 4 = 0 by omega, List.drop_zero,
        show i + 4 - features.length = 0 by omega,
        List.replicate_zero, List.append_nil, List.take_take,
        show min (4 - i) (i + 4) = 4 - i by omega]
      rw [zerosLike_eq_replicate _ d
        (fun r hr => hw r (List.take_subset _ _ hr)), List.length_take,
        show min (4 - i) features.length = 4 - i by omega]
    · by_cases hl : features.length < i + 4
      · simp only [gafNat, eq_false h4, eq_true hl, if_true, if_false,
          show min features.length (i + 4) = features.length by omega,
          List.take_length,
          show (4 : Nat) - i = 0 by omega,
          List.replicate_zero, List.nil_append]
        rw [zerosLike_eq_replicate _ d
          (fun r hr =>
            hw r (List.drop_subset _ _ (List.take_subset _ _ hr))),
          List.length_take, List.length_drop,
          show min (i + 4 - features.length) (features.length - (i - 4))
            = i + 4 - features.length by omega]
      · simp only [gafNat, eq_false h4, eq_false hl, if_false,
          show (4 : Nat) - i = 0 by omega,
          show i + 4 - features.length = 0 by omega,
          List.replicate_zero, List.nil_append, List.append_nil]
  refine ⟨hstruct, ?_⟩
  rw [hstruct]
  simp only [List.length_append, List.length_replicate, List.length_drop,
    List.length_take]
  omega

/-- Witness for the amended C1 theorem at a concrete 8-row input. -/
theorem get_audio_features_window_witness :
    get_audio_features [[1], [2], [3], [4], [5], [6], [7], [8]] 0 =
      List.replicate 4 (zeroRow 1)
        ++ ([[1], [2], [3], [4], [5], [6], [7], [8]].take (min 8 4)).drop 0
        ++ List.replicate 0 (zeroRow 1)
    ∧ (get_audio_features [[1], [2], [3], [4], [5], [6], [7], [8]] 0).length = 8 := by
  have h := get_audio_features_window [[1], [2], [3], [4], [5], [6], [7], [8]] 1 0
    (by decide) (by decide) (by decide) (by decide)
  simpa using h

/-! ## FaceCompositor: crop bounds (inference.py lines 96-134) -/

/-- `np.min` over a nonempty axis (the code only calls it with at least
10 landmarks; the empty case is given a default to keep the model total). -/
def np_min : List Int → Int
  | [] => 0
  | x :: xs => xs.foldl min x

/-- `np.max` over a nonempty axis. -/
def np_max : List Int → Int
  | [] => 0
  | x :: xs => xs.foldl max x

/-- The four crop coordinates `xmin, ymin, xmax, ymax`. -/
structure CropBounds where
  xmin : Int
  ymin : Int
  xmax : Int
  ymax : Int
deriving Repr, DecidableEq

/-- Models `int(size * 1.2)` (20% padding). The Python expression goes
through float64; for the nonnegative sizes that occur it equals
`⌊size * 6 / 5⌋` up to the float's last-bit rounding, and none of the
properties proved below depend on the exact padded value. -/
def pad20 (size : Int) : Int := (size * 6).fdiv 5

/-- The un-clamped square crop box computed from the landmark extents in
the inference main loop: bounding box of the landmarks, squared via
`size = max(width, height)`, centered on the integer midpoint
(`//` is floor division), padded 20%, then re-expanded from the center. -/
def rawCropBounds (lms : List (Int × Int)) : CropBounds :=
  let all_x := lms.map Prod.fst
  let all_y := lms.map Prod.snd
  let xmin := np_min all_x
  let xmax := np_max all_x
  let ymin := np_min all_y
  let ymax := np_max all_y
  let width := xmax - xmin
  let height := ymax - ymin
  let size := max width height
  let center_x := (xmin + xmax).fdiv 2
  let center_y := (ymin + ymax).fdiv 2
  let size := pad20 size
  let xmin := center_x - size.fdiv 2
  let ymin := center_y - size.fdiv 2
  let xmax := xmin + size
  let ymax := ymin + size
  ⟨xmin, ymin, xmax, ymax⟩

/-- `xmin = max(0, xmin)` … `ymax = min(img_h, ymax)` from the main loop. -/
def clampBounds (b : CropBounds) (imgW imgH : Nat) : CropBounds :=
  ⟨max 0 b.xmin, max 0 b.ymin, min (imgW : Int) b.xmax, min (imgH : Int) b.ymax⟩

/-- The `width <= 0 or height <= 0` rejection check (negated): the frame
is processed only when this is `true`, otherwise it is skipped. -/
def cropValid (b : CropBounds) : Bool :=
  decide (0 < b.xmax - b.xmin) && decide (0 < b.ymax - b.ymin)

/-- C2: for any landmark set of at least 10 points and any image size, the
clamped crop bounds satisfy `0 ≤ xmin`, `0 ≤ ymin`, `xmax ≤ imgW`,
`ymax ≤ imgH`, and whenever the frame is not rejected
(`cropValid = true`) the crop rectangle is nonempty, so the crop indexing
`img[ymin:ymax, xmin:xmax]` is in bounds. -/
theorem faceRegion_in_bounds (lms : List (Int × Int)) (imgW imgH : Nat)
    (h10 : 10 ≤ lms.length) :
    0 ≤ (clampBounds (rawCropBounds lms) imgW imgH).xmin ∧
    0 ≤ (clampBounds (rawCropBounds lms) imgW imgH).ymin ∧
    (clampBounds (rawCropBounds lms) imgW imgH).xmax ≤ imgW ∧
    (clampBounds (rawCropBounds lms) imgW imgH).ymax ≤ imgH ∧
    (cropValid (clampBounds (rawCropBounds lms) imgW imgH) = true →
      (clampBounds (rawCropBounds lms) imgW imgH).xmin
          < (clampBounds (rawCropBounds lms) imgW imgH).xmax ∧
        (clampBounds (rawCropBounds lms) imgW imgH).ymin
          < (clampBounds (rawCropBounds lms) imgW imgH).ymax) := by
  refine ⟨le_max_left _ _, le_max_left _ _, min_le_left _ _, min_le_left _ _, ?_⟩
  intro hv
  simp only [cropValid, Bool.and_eq_true, decide_eq_true_eq] at hv
  omega

/-- Witness for C2 at a concrete 10-landmark set and a 100×100 image. -/
theorem faceRegion_in_bounds_witness :
    0 ≤ (clampBounds (rawCropBounds [(0, 0), (1, 1), (2, 2), (3, 3), (4, 4),
        (5, 5), (6, 6), (7, 7), (8, 8), (9, 9)]) 100 100).xmin ∧
    0 ≤ (clampBounds (rawCropBounds [(0, 0), (1, 1), (2, 2), (3, 3), (4, 4),
        (5, 5), (6, 6), (7, 7), (8, 8), (9, 9)]) 100 100).ymin ∧
    (clampBounds (rawCropBounds [(0, 0), (1, 1), (2, 2), (3, 3), (4, 4),
        (5, 5), (6, 6), (7, 7), (8, 8), (9, 9)]) 100 100).xmax ≤ 100 ∧
    (clampBounds (rawCropBounds [(0, 0), (1, 1), (2, 2), (3, 3), (4, 4),
        (5, 5), (6, 6), (7, 7), (8, 8), (9, 9)]) 100 100).ymax ≤ 100 ∧
    (cropValid (clampBounds (rawCropBounds [(0, 0), (1, 1), (2, 2), (3, 3), (4, 4),
        (5, 5), (6, 6), (7, 7), (8, 8), (9, 9)]) 100 100) = true →
      (clampBounds (rawCropBounds [(0, 0), (1, 1), (2, 2), (3, 3), (4, 4),
          (5, 5), (6, 6), (7, 7), (8, 8), (9, 9)]) 100 100).xmin
          < (clampBounds (rawCropBounds [(0, 0), (1, 1), (2, 2), (3, 3), (4, 4),
            (5, 5), (6, 6), (7, 7), (8, 8), (9, 9)]) 100 100).xmax ∧
        (clampBounds (rawCropBounds [(0, 0), (1, 1), (2, 2), (3, 3), (4, 4),
            (5, 5), (6, 6), (7, 7), (8, 8), (9, 9)]) 100 100).ymin
          < (clampBounds (rawCropBounds [(0, 0), (1, 1), (2, 2), (3, 3), (4, 4),
            (5, 5), (6, 6), (7, 7), (8, 8), (9, 9)]) 100 100).ymax) :=
  faceRegion_in_bounds _ 100 100 (by decide)

/-! ## FrameIndexSelector

Policy 1: the ping-pong `img_idx` / `step_stride` update of the inference
main loop (inference.py lines 62-73). `len_img` is
`len(os.listdir(img_dir)) - 1`, i.e. the last valid frame index `N - 1`
for a pool of `N` reference frames.

Policy 2: the action-range traversal emitted by
`DigitalHumanGenerator._create_smart_inference_script`
(agent/dh_generator.py lines 283-295). -/

/-- One loop iteration of the ping-pong update: `if img_idx > len_img - 1:
step_stride = -1`, then `if img_idx < 1: step_stride = 1`, then
`img_idx += step_stride`. The pair is `(img_idx, step_stride)`. -/
def pingPongStep (len_img : Int) (s : Int × Int) : Int × Int :=
  let stride := if s.1 > len_img - 1 then -1 else s.2
  let stride := if s.1 < 1 then 1 else stride
  (s.1 + stride, stride)

/-- The state after `n` loop iterations, starting from
`step_stride = 0`, `img_idx = 0`. Frame `n` (counting from 0) uses image
index `(pingPongIter len_img (n+1)).1`, since the loop updates the index
before reading the image. -/
def pingPongIter (len_img : Int) : Nat → Int × Int
  | 0 => (0, 0)
  | n + 1 => pingPongStep len_img (pingPongIter len_img n)

/-- C6, counterexample: with a pool of `N = 1` reference frames
(`len_img = 0`), the very first produced index is `1`, outside
`[0, N-1] = [0, 0]`: both flip conditions fire, the second wins, and the
index walks off the end of the pool. -/
theorem pingPong_single_frame_pool_escapes :
    (pingPongIter 0 1).1 = 1 ∧ ¬((pingPongIter 0 1).1 ≤ 0) := by
  constructor <;> decide

theorem pingPongStep_fst (len_img : Int) (q : Int × Int) :
    (pingPongStep len_img q).1 =
      q.1 + (if q.1 < 1 then 1 else if q.1 > len_img - 1 then -1 else q.2) := by
  simp only [pingPongStep]

theorem pingPongStep_snd (len_img : Int) (q : Int × Int) :
    (pingPongStep len_img q).2 =
      (if q.1 < 1 then 1 else if q.1 > len_img - 1 then -1 else q.2) := by
  simp only [pingPongStep]

theorem pingPongIter_invariant (len_img : Int) (h : 1 ≤ len_img) (n : Nat) :
    0 ≤ (pingPongIter len_img n).1 ∧ (pingPongIter len_img n).1 ≤ len_img ∧
      ((pingPongIter len_img n).2 = 0 ∧ (pingPongIter len_img n).1 = 0 ∨
        (pingPongIter len_img n).2 = 1 ∨ (pingPongIter len_img n).2 = -1) := by
  induction n with
  | zero =>
    refine ⟨?_, ?_, Or.inl ⟨rfl, rfl⟩⟩
    · show (0 : Int) ≤ 0
      norm_num
    · show (0 : Int) ≤ len_img
      omega
  | succ n ih =>
    obtain ⟨h0, h1, h2⟩ := ih
    simp only [pingPongIter, pingPongStep_fst, pingPongStep_snd]
    rcases h2 with ⟨hs, hz⟩ | hs | hs <;> split_ifs <;> omega

/-- The per-frame index of the generated smart-inference script: inside a
configured action range `[action_start, action_end]`, frame `i` follows a
triangle wave of period `2*size - 2` (`size = end - start + 1`), then the
result is clamped into `[0, 1177]` (`img_idx = max(0, min(img_idx, 1177))`,
the pool being the fixed `0..1177` image set). -/
def smartFrameIdx (action_start action_end : Int) (i : Nat) : Int :=
  let action_range_size := action_end - action_start + 1
  let idx :=
    if 1 < action_range_size then
      let cycle_pos : Int := (i : Int) % (action_range_size * 2 - 2)
      if cycle_pos < action_range_size then action_start + cycle_pos
      else action_start + (action_range_size * 2 - 2 - cycle_pos)
    else action_start
  max 0 (min idx 1177)

/-- C6 (amended): the ping-pong policy keeps the produced index inside
`[0, N-1]` for every pool of `N ≥ 2` frames (`len_img = N - 1 ≥ 1`), at
every step; the action-range policy keeps the produced index inside
`[0, 1177]` (its pool is the fixed 1178-image set) for every configured
range and every frame, thanks to its final clamp. -/
theorem frame_index_in_pool (len_img : Int) (hN : 1 ≤ len_img) (n : Nat)
    (action_start action_end : Int) (i : Nat) :
    (0 ≤ (pingPongIter len_img n).1 ∧ (pingPongIter len_img n).1 ≤ len_img) ∧
      (0 ≤ smartFrameIdx action_start action_end i ∧
        smartFrameIdx action_start action_end i ≤ 1177) := by
  refine ⟨⟨(pingPongIter_invariant len_img hN n).1,
    (pingPongIter_invariant len_img hN n).2.1⟩, le_max_left _ _, ?_⟩
  exact max_le (by norm_num) (min_le_right _ _)

/-- Witness for the amended C6 theorem: pool of 3 frames, 5 steps in, and
an action range `[0, 5]` at frame 9. -/
theorem frame_index_in_pool_witness :
    ((0 ≤ (pingPongIter 2 5).1 ∧ (pingPongIter 2 5).1 ≤ 2) ∧
      (0 ≤ smartFrameIdx 0 5 9 ∧ smartFrameIdx 0 5 9 ≤ 1177)) :=
  frame_index_in_pool 2 (by norm_num) 5 0 5 9

/-! ## FaceCompositor: patch paste-back (inference.py lines 165-173) -/

/-- Rectangular in-place assignment `img[y0:y1, x0:x1] = patch` on an
image modelled as a pixel function: inside the rectangle the patch pixel
(re-based to the rectangle origin) is used, outside the original pixel is
kept. -/
def pasteRect {α : Type} (img patch : Nat → Nat → α) (y0 y1 x0 x1 : Nat) :
    Nat → Nat → α :=
  fun y x =>
    if y0 ≤ y ∧ y < y1 ∧ x0 ≤ x ∧ x < x1 then patch (y - y0) (x - x0)
    else img y x

/-- The paste-back tail of the inference main loop:
`crop_img_ori[4:164, 4:164] = pred`, then
`crop_img_ori = cv2.resize(crop_img_ori, (w, h))` (the external resize is
passed in as an arbitrary function of the patched crop and the original
crop size), then `img[ymin:ymax, xmin:xmax] = crop_img_ori`. `pred` is
the model's output patch, treated as an arbitrary image. -/
def paste_back {α : Type} (img : Nat → Nat → α) (b : CropBounds)
    (crop_img_ori pred : Nat → Nat → α)
    (resize : (Nat → Nat → α) → Nat → Nat → Nat → Nat → α) :
    Nat → Nat → α :=
  let patched := pasteRect crop_img_ori pred 4 164 4 164
  let resized := resize patched (b.xmax - b.xmin).toNat (b.ymax - b.ymin).toNat
  pasteRect img resized b.ymin.toNat b.ymax.toNat b.xmin.toNat b.xmax.toNat

/-- C8: whatever the model predicts and whatever the external resize
returns, every pixel outside the crop rectangle
`[ymin:ymax, xmin:xmax]` of the composited frame is bit-identical to the
source image. -/
theorem paste_back_outside_unchanged {α : Type} (img crop pred : Nat → Nat → α)
    (b : CropBounds)
    (resize : (Nat → Nat → α) → Nat → Nat → Nat → Nat → α) (y x : Nat)
    (hout : ¬(b.ymin.toNat ≤ y ∧ y < b.ymax.toNat ∧
      b.xmin.toNat ≤ x ∧ x < b.xmax.toNat)) :
    paste_back img b crop pred resize y x = img y x := by
  simp only [paste_back, pasteRect, if_neg hout]

/-- Witness for C8: a concrete image, crop box `[2,4)×[2,4)`, and the
pixel `(0, 0)` outside it. -/
theorem paste_back_outside_unchanged_witness :
    paste_back (fun y x => 10 * y + x) ⟨2, 2, 4, 4⟩ (fun _ _ => 7)
      (fun _ _ => 9) (fun p _ _ => p) 0 0 = 0 :=
  (paste_back_outside_unchanged (fun y x => 10 * y + x) (fun _ _ => 7)
    (fun _ _ => 9) ⟨2, 2, 4, 4⟩ (fun p _ _ => p) 0 0 (by decide)).trans rfl

/-! ## StreamTaskManager: `AsyncUDPStreamer` (agent/dh_streamer_async.py)

The streamer is embedded as a state machine. A state holds the stream
queue, the `active_tasks` and `completed_tasks` dicts (modelled as lists
keyed by `task_id`; insertion order is preserved, as in Python dicts),
and the two configuration numbers. One `Step` is one atomic action of
one of the threads: a producer call to `add_stream_task`, the task
manager starting the task at the head of the queue (succeeding or
failing), or one full iteration of the monitor loop. Wall-clock time and
the child processes are external: each step that needs them takes the
current time and a poll oracle (exit code of a task's process, `none`
while it still runs) as parameters. -/

/-- `queue.Queue(maxsize)`: `maxsize = 0` (the default, used for
`stream_queue`) means the queue is unbounded. -/
structure PyQueue (α : Type) where
  maxsize : Nat
  items : List α

/-- `Queue.full()`: true iff the queue is bounded and holds at least
`maxsize` items. -/
def PyQueue.full {α : Type} (q : PyQueue α) : Bool :=
  decide (0 < q.maxsize) && decide (q.maxsize ≤ q.items.length)

/-- `Queue.put(item, timeout=...)` with no consumer running: succeeds
(appending the item) iff the queue is not full, otherwise raises
`queue.Full` after the timeout, modelled as `none`. -/
def PyQueue.put? {α : Type} (q : PyQueue α) (a : α) : Option (PyQueue α) :=
  if q.full then none else some { q with items := q.items ++ [a] }

/-- `StreamTaskStatus` from `dh_streamer_async.py`. -/
inductive StreamTaskStatus : Type
  | pending
  | streaming
  | completed
  | failed
  | timeout
deriving DecidableEq, Repr

/-- A status from which the manager never moves a task again. -/
def StreamTaskStatus.isTerminal : StreamTaskStatus → Bool
  | .completed => true
  | .failed => true
  | .timeout => true
  | _ => false

/-- The `StreamTask` dataclass. The `process` field keeps only the pid
(the `Popen` object itself is external); times are naturals. -/
structure StreamTask where
  task_id : String
  video_path : String
  audio_path : Option String
  created_time : Nat
  status : StreamTaskStatus
  process : Option Nat
  start_time : Option Nat
  end_time : Option Nat
  error_message : Option String
deriving DecidableEq, Repr

/-- The mutable state of one `AsyncUDPStreamer`. -/
structure StreamerState where
  stream_queue : PyQueue StreamTask
  active_tasks : List StreamTask
  completed_tasks : List StreamTask
  max_concurrent_streams : Nat
  stream_timeout : Nat

/-- The task object built by `add_stream_task` before enqueueing. -/
def mkStreamTask (tid vp : String) (ap : Option String) (now : Nat) : StreamTask :=
  ⟨tid, vp, ap, now, .pending, none, none, none, none⟩

/-- The ids of a task list (the dict keys). -/
def idsOf (l : List StreamTask) : List String :=
  l.map StreamTask.task_id

/-- All tasks known to the streamer, in lookup order. -/
def allTasks (s : StreamerState) : List StreamTask :=
  s.stream_queue.items ++ s.active_tasks ++ s.completed_tasks

/-- `get_task_status`: look in `active_tasks` first, then
`completed_tasks`, else `None`. -/
def get_task_status (s : StreamerState) (tid : String) : Option StreamTask :=
  match s.active_tasks.find? (fun t => t.task_id == tid) with
  | some t => some t
  | none => s.completed_tasks.find? (fun t => t.task_id == tid)

/-- One active task's treatment by one `_process_monitor` iteration:
`none` means the task stays active untouched (process still running and
within the timeout, or no process recorded — the loop's `continue`);
`some t'` is the finished record to be moved to `completed_tasks`.
A recorded exit code 0 gives COMPLETED; a nonzero code gives FAILED with
the error message (the stderr capture is external, modelled by the
code's fallback text); a still-running process past the timeout is
killed and gives TIMEOUT. -/
def monitorUpdate (stream_timeout now : Nat) (poll : String → Option Int)
    (t : StreamTask) : Option StreamTask :=
  match t.process with
  | none => none
  | some _ =>
    match poll t.task_id with
    | some rc =>
      if rc = 0 then some { t with status := .completed, end_time := some now }
      else some { t with
        status := .failed
        end_time := some now
        error_message := some ("进程退出码: " ++ toString rc) }
    | none =>
      if stream_timeout < now - t.start_time.getD 0 then
        some { t with
          status := .timeout
          end_time := some now
          error_message :=
            some ("推流超时: " ++ toString stream_timeout ++ "秒") }
      else none

/-- One full `_process_monitor` iteration: every active task that
finished (or timed out) this tick is moved, in iteration order, from
`active_tasks` to `completed_tasks` with its new status; the rest stay
active unchanged. -/
def monitorStep (now : Nat) (poll : String → Option Int)
    (s : StreamerState) : StreamerState :=
  { s with
    active_tasks := s.active_tasks.filter
      (fun t => (monitorUpdate s.stream_timeout now poll t).isNone),
    completed_tasks := s.completed_tasks ++
      s.active_tasks.filterMap (monitorUpdate s.stream_timeout now poll) }

/-- The streamer state right after `__init__`. -/
def initState (maxC timeoutS : Nat) : StreamerState :=
  ⟨⟨0, []⟩, [], [], maxC, timeoutS⟩

/-- One atomic action of the streamer's threads.

* `submit`: `add_stream_task` builds a PENDING task (with a fresh id, as
  the timestamp+hash naming scheme assumes) and `put`s it; the step
  exists only when the put succeeds.
* `startFail`: the task manager dequeues the head task while below the
  concurrency limit, and `_start_stream_task` fails (missing video file
  or spawn exception): the task goes straight to `completed_tasks` as
  FAILED.
* `startOk`: same dequeue, but the spawn succeeds: the task becomes
  STREAMING, records its pid and start time, and joins `active_tasks`.
* `monitor`: one `_process_monitor` iteration at time `now` with poll
  oracle `poll`. -/
inductive Step : StreamerState → StreamerState → Prop
  | submit (s : StreamerState) (tid vp : String) (ap : Option String)
      (now : Nat) (q' : PyQueue StreamTask)
      (hfresh : tid ∉ idsOf (allTasks s))
      (hput : s.stream_queue.put? (mkStreamTask tid vp ap now) = some q') :
      Step s { s with stream_queue := q' }
  | startFail (s : StreamerState) (t : StreamTask) (rest : List StreamTask)
      (msg : String)
      (hq : s.stream_queue.items = t :: rest)
      (hcap : s.active_tasks.length < s.max_concurrent_streams) :
      Step s { s with
        stream_queue := { s.stream_queue with items := rest },
        completed_tasks := s.completed_tasks ++
          [{ t with status := .failed, error_message := some msg }] }
  | startOk (s : StreamerState) (t : StreamTask) (rest : List StreamTask)
      (pid now : Nat)
      (hq : s.stream_queue.items = t :: rest)
      (hcap : s.active_tasks.length < s.max_concurrent_streams) :
      Step s { s with
        stream_queue := { s.stream_queue with items := rest },
        active_tasks := s.active_tasks ++
          [{ t with
            status := .streaming
            process := some pid
            start_time := some now }] }
  | monitor (s : StreamerState) (now : Nat) (poll : String → Option Int) :
      Step s (monitorStep now poll s)

/-- States reachable from `s0` by the streamer's threads. -/
inductive Reachable (s0 : StreamerState) : StreamerState → Prop
  | refl : Reachable s0 s0
  | tail {s s' : StreamerState} :
      Reachable s0 s → Step s s' → Reachable s0 s'

theorem monitorUpdate_id (tmo now : Nat) (poll : String → Option Int)
    (t u : StreamTask) (h : monitorUpdate tmo now poll t = some u) :
    u.task_id = t.task_id := by
  cases hp : t.process with
  | none => simp [monitorUpdate, hp] at h
  | some pid =>
    cases hpoll : poll t.task_id with
    | some rc =>
      simp only [monitorUpdate, hp, hpoll] at h
      split_ifs at h <;> · injection h with h; subst h; rfl
    | none =>
      simp only [monitorUpdate, hp, hpoll] at h
      split_ifs at h
      injection h with h; subst h; rfl

theorem monitorUpdate_status (tmo now : Nat) (poll : String → Option Int)
    (t u : StreamTask) (h : monitorUpdate tmo now poll t = some u) :
    u.status = .completed ∨ u.status = .failed ∨ u.status = .timeout := by
  cases hp : t.process with
  | none => simp [monitorUpdate, hp] at h
  | some pid =>
    cases hpoll : poll t.task_id with
    | some rc =>
      simp only [monitorUpdate, hp, hpoll] at h
      split_ifs at h <;> · injection h with h; subst h; simp
    | none =>
      simp only [monitorUpdate, hp, hpoll] at h
      split_ifs at h
      injection h with h; subst h; simp

theorem perm_snoc {α : Type} (x : α) (l : List α) : (x :: l).Perm (l ++ [x]) := by
  simpa using @List.perm_append_comm _ [x] l

theorem monitor_split_ids_perm (tmo now : Nat) (poll : String → Option Int)
    (l : List StreamTask) :
    (idsOf (l.filter (fun t => (monitorUpdate tmo now poll t).isNone))
      ++ idsOf (l.filterMap (monitorUpdate tmo now poll))).Perm (idsOf l) := by
  induction l with
  | nil => simp [idsOf]
  | cons a l ih =>
    cases hu : monitorUpdate tmo now poll a with
    | none =>
      simp only [idsOf, List.filter_cons, List.filterMap_cons, hu,
        Option.isNone_none, List.map_cons, List.cons_append]
      exact (ih.cons a.task_id).trans (List.Perm.refl _) |>.trans (by rfl)
    | some b =>
      have hid : b.task_id = a.task_id := monitorUpdate_id tmo now poll a b hu
      simp only [idsOf, List.filter_cons, List.filterMap_cons, hu,
        Option.isNone_some, List.map_cons, Bool.false_eq_true, if_false]
      rw [hid]
      exact List.perm_middle.trans (ih.cons a.task_id)

theorem idsOf_append (l₁ l₂ : List StreamTask) :
    idsOf (l₁ ++ l₂) = idsOf l₁ ++ idsOf l₂ :=
  List.map_append _ _ _

theorem idsOf_cons (t : StreamTask) (l : List StreamTask) :
    idsOf (t :: l) = t.task_id :: idsOf l :=
  rfl

/-- C3: in every state reachable from initialization, the number of
active (STREAMING) stream tasks is at most `max_concurrent_streams`:
the task manager dequeues and starts a task only while strictly below
the limit, and the monitor only removes active tasks. -/
theorem active_count_le_max (maxC timeoutS : Nat) (s : StreamerState)
    (h : Reachable (initState maxC timeoutS) s) :
    s.active_tasks.length ≤ s.max_concurrent_streams := by
  induction h with
  | refl => simp [initState]
  | tail hr hstep ih =>
    cases hstep with
    | submit tid vp ap now q' hfresh hput => exact ih
    | startFail t rest msg hq hcap => exact ih
    | startOk t rest pid now hq hcap =>
      simp only [List.length_append, List.length_singleton]
      omega
    | monitor now poll =>
      simp only [monitorStep]
      exact le_trans (List.length_filter_le _ _) ih

/-- Witness for C3 at the freshly initialized streamer. -/
theorem active_count_le_max_witness :
    (initState 3 300).active_tasks.length ≤
      (initState 3 300).max_concurrent_streams :=
  active_count_le_max 3 300 (initState 3 300) Reachable.refl

/-- The structural invariant of the streamer state: queued tasks are
PENDING, active tasks are STREAMING, completed tasks carry a terminal
status, and no task id occurs twice across the three containers. -/
structure StreamerInv (s : StreamerState) : Prop where
  qPending : ∀ t ∈ s.stream_queue.items, t.status = StreamTaskStatus.pending
  aStreaming : ∀ t ∈ s.active_tasks, t.status = StreamTaskStatus.streaming
  cTerminal : ∀ t ∈ s.completed_tasks, t.status.isTerminal = true
  idsNodup : (idsOf (allTasks s)).Nodup

theorem inv_init (maxC timeoutS : Nat) : StreamerInv (initState maxC timeoutS) := by
  constructor <;> simp [initState, allTasks, idsOf]

theorem inv_step {s s' : StreamerState} (hs : StreamerInv s) (hstep : Step s s') :
    StreamerInv s' := by
  cases hstep with
  | submit tid vp ap now q' hfresh hput =>
    have hq' : q'.items = s.stream_queue.items ++ [mkStreamTask tid vp ap now] := by
      unfold PyQueue.put? at hput
      split_ifs at hput
      injection hput with hput
      subst hput
      rfl
    refine ⟨?_, hs.aStreaming, hs.cTerminal, ?_⟩
    · intro t ht
      rw [show ({ s with stream_queue := q' } : StreamerState).stream_queue = q'
          from rfl, hq'] at ht
      rcases List.mem_append.mp ht with h | h
      · exact hs.qPending t h
      · simp only [List.mem_singleton] at h
        subst h
        rfl
    · have heq : idsOf (allTasks { s with stream_queue := q' })
          = idsOf s.stream_queue.items ++ tid ::
              (idsOf s.active_tasks ++ idsOf s.completed_tasks) := by
        simp [allTasks, hq', idsOf_append, mkStreamTask, idsOf, List.append_assoc]
      rw [heq, List.nodup_middle]
      refine List.nodup_cons.mpr ⟨?_, ?_⟩
      · intro hmem
        apply hfresh
        simp only [allTasks, idsOf_append, List.mem_append] at hmem ⊢
        tauto
      · have h2 := hs.idsNodup
        simp only [allTasks, idsOf_append, List.nodup_append, List.append_assoc] at h2 ⊢
        tauto
  | startFail t rest msg hq hcap =>
    have hids : idsOf (allTasks s) = t.task_id ::
        (idsOf rest ++ (idsOf s.active_tasks ++ idsOf s.completed_tasks)) := by
      simp [allTasks, hq, idsOf_append, idsOf_cons, List.append_assoc]
    refine ⟨?_, hs.aStreaming, ?_, ?_⟩
    · intro u hu
      exact hs.qPending u (by rw [hq]; exact List.mem_cons_of_mem _ hu)
    · intro u hu
      rcases List.mem_append.mp hu with h | h
      · exact hs.cTerminal u h
      · simp only [List.mem_singleton] at h
        subst h
        rfl
    · have hperm : (idsOf (allTasks s)).Perm
          (idsOf (allTasks { s with
            stream_queue := { s.stream_queue with items := rest },
            completed_tasks := s.completed_tasks ++
              [{ t with status := .failed, error_message := some msg }] })) := by
        rw [hids]
        refine (perm_snoc _ _).trans ?_
        have : (idsOf rest ++ (idsOf s.active_tasks ++ idsOf s.completed_tasks))
            ++ [t.task_id]
            = idsOf (allTasks { s with
                stream_queue := { s.stream_queue with items := rest },
                completed_tasks := s.completed_tasks ++
                  [{ t with status := .failed, error_message := some msg }] }) := by
          simp [allTasks, idsOf_append, idsOf, List.append_assoc]
        rw [this]
      exact hperm.nodup hs.idsNodup
  | startOk t rest pid now hq hcap =>
    have hids : idsOf (allTasks s) = t.task_id ::
        (idsOf rest ++ (idsOf s.active_tasks ++ idsOf s.completed_tasks)) := by
      simp [allTasks, hq, idsOf_append, idsOf_cons, List.append_assoc]
    refine ⟨?_, ?_, hs.cTerminal, ?_⟩
    · intro u hu
      exact hs.qPending u (by rw [hq]; exact List.mem_cons_of_mem _ hu)
    · intro u hu
      rcases List.mem_append.mp hu with h | h
      · exact hs.aStreaming u h
      · simp only [List.mem_singleton] at h
        subst h
        rfl
    · have hperm : (idsOf (allTasks s)).Perm
          (idsOf (allTasks { s with
            stream_queue := { s.stream_queue with items := rest },
            active_tasks := s.active_tasks ++
              [{ t with
                status := .streaming
                process := some pid
                start_time := some now }] })) := by
        rw [hids]
        refine ?_
        have heq : idsOf (allTasks { s with
            stream_queue := { s.stream_queue with items := rest },
            active_tasks := s.active_tasks ++
              [{ t with
                status := .streaming
                process := some pid
                start_time := some now }] })
            = (idsOf rest ++ idsOf s.active_tasks) ++
                (t.task_id :: idsOf s.completed_tasks) := by
          simp [allTasks, idsOf_append, idsOf, List.append_assoc]
        rw [heq]
        refine List.Perm.symm (List.perm_middle.trans ?_)
        simp only [List.append_assoc]
        exact List.Perm.refl _
      exact hperm.nodup hs.idsNodup
  | monitor now poll =>
    refine ⟨hs.qPending, ?_, ?_, ?_⟩
    · intro u hu
      exact hs.aStreaming u (List.mem_of_mem_filter hu)
    · intro u hu
      rcases List.mem_append.mp hu with h | h
      · exact hs.cTerminal u h
      · obtain ⟨a, ha, hupd⟩ := List.mem_filterMap.mp h
        rcases monitorUpdate_status _ _ _ _ _ hupd with h3 | h3 | h3 <;>
          simp [StreamTaskStatus.isTerminal, h3]
    · have hperm : (idsOf (allTasks s)).Perm
          (idsOf (allTasks (monitorStep now poll s))) := by
        have hsplit := monitor_split_ids_perm s.stream_timeout now poll s.active_tasks
        have heq : idsOf (allTasks (monitorStep now poll s))
            = idsOf s.stream_queue.items ++
              (idsOf (s.active_tasks.filter
                  (fun t => (monitorUpdate s.stream_timeout now poll t).isNone)) ++
                (idsOf s.completed_tasks ++
                  idsOf (s.active_tasks.filterMap
                    (monitorUpdate s.stream_timeout now poll)))) := by
          simp [allTasks, monitorStep, idsOf_append, List.append_assoc]
        have heq2 : idsOf (allTasks s)
            = idsOf s.stream_queue.items ++
              (idsOf s.active_tasks ++ idsOf s.completed_tasks) := by
          simp [allTasks, idsOf_append, List.append_assoc]
        rw [heq, heq2]
        refine List.Perm.append_left _ ?_
        have step1 : (idsOf (s.active_tasks.filter
              (fun t => (monitorUpdate s.stream_timeout now poll t).isNone)) ++
            (idsOf (s.active_tasks.filterMap
                (monitorUpdate s.stream_timeout now poll)) ++
              idsOf s.completed_tasks)).Perm
            (idsOf s.active_tasks ++ idsOf s.completed_tasks) := by
          rw [← List.append_assoc]
          exact List.Perm.append_right _ hsplit
        refine List.Perm.symm (List.Perm.trans ?_ step1)
        exact List.Perm.append_left _ (List.perm_append_comm)
      exact hperm.nodup hs.idsNodup

theorem inv_reachable (maxC timeoutS : Nat) (s : StreamerState)
    (h : Reachable (initState maxC timeoutS) s) : StreamerInv s := by
  induction h with
  | refl => exact inv_init maxC timeoutS
  | tail hr hstep ih => exact inv_step ih hstep

theorem put?_items {α : Type} (q q' : PyQueue α) (a : α)
    (h : q.put? a = some q') : q'.items = q.items ++ [a] := by
  unfold PyQueue.put? at h
  split_ifs at h
  injection h with h
  subst h
  rfl

/-- The status transitions the streamer code can perform in one step:
`_start_stream_task` turns a PENDING task into STREAMING (spawn ok) or
FAILED (missing file / spawn exception); `_process_monitor` turns a
STREAMING task into COMPLETED, FAILED or TIMEOUT. -/
def statusEdge : StreamTaskStatus → StreamTaskStatus → Bool
  | .pending, .streaming => true
  | .pending, .failed => true
  | .streaming, .completed => true
  | .streaming, .failed => true
  | .streaming, .timeout => true
  | _, _ => false

/-- The status currently recorded for a task id, looking through the
queue, the active dict and the completed dict. -/
def findStatus (s : StreamerState) (tid : String) : Option StreamTaskStatus :=
  ((allTasks s).find? (fun t => t.task_id == tid)).map StreamTask.status

theorem step_task_transfer {s s' : StreamerState} (hs : StreamerInv s)
    (hstep : Step s s') (t' : StreamTask) (ht' : t' ∈ allTasks s') :
    (∃ t ∈ allTasks s, t.task_id = t'.task_id ∧
      (t.status = t'.status ∨ statusEdge t.status t'.status = true)) ∨
    t'.task_id ∉ idsOf (allTasks s) := by
  cases hstep with
  | submit tid vp ap now q' hfresh hput =>
    have hq' := put?_items _ _ _ hput
    simp only [allTasks, hq', List.mem_append, List.mem_singleton] at ht'
    rcases ht' with ((h | h) | h) | h
    · exact Or.inl ⟨t', by simp [allTasks, h], rfl, Or.inl rfl⟩
    · subst h
      exact Or.inr hfresh
    · exact Or.inl ⟨t', by simp [allTasks, h], rfl, Or.inl rfl⟩
    · exact Or.inl ⟨t', by simp [allTasks, h], rfl, Or.inl rfl⟩
  | startFail t rest msg hq hcap =>
    simp only [allTasks, List.mem_append, List.mem_singleton] at ht'
    rcases ht' with (h | h) | h | h
    · exact Or.inl ⟨t', by simp only [allTasks, hq, List.mem_append]; tauto, rfl,
        Or.inl rfl⟩
    · exact Or.inl ⟨t', by simp [allTasks, h], rfl, Or.inl rfl⟩
    · exact Or.inl ⟨t', by simp [allTasks, h], rfl, Or.inl rfl⟩
    · subst h
      refine Or.inl ⟨t, by simp [allTasks, hq], rfl, Or.inr ?_⟩
      have hp : t.status = StreamTaskStatus.pending :=
        hs.qPending t (by rw [hq]; exact List.mem_cons_self t rest)
      rw [hp]
      rfl
  | startOk t rest pid now hq hcap =>
    simp only [allTasks, List.mem_append, List.mem_singleton] at ht'
    rcases ht' with (h | (h | h)) | h
    · exact Or.inl ⟨t', by simp only [allTasks, hq, List.mem_append]; tauto, rfl,
        Or.inl rfl⟩
    · exact Or.inl ⟨t', by simp [allTasks, h], rfl, Or.inl rfl⟩
    · subst h
      refine Or.inl ⟨t, by simp [allTasks, hq], rfl, Or.inr ?_⟩
      have hp : t.status = StreamTaskStatus.pending :=
        hs.qPending t (by rw [hq]; exact List.mem_cons_self t rest)
      rw [hp]
      rfl
    · exact Or.inl ⟨t', by simp [allTasks, h], rfl, Or.inl rfl⟩
  | monitor now poll =>
    simp only [allTasks, monitorStep, List.mem_append] at ht'
    rcases ht' with (h | h) | h | h
    · exact Or.inl ⟨t', by simp [allTasks, h], rfl, Or.inl rfl⟩
    · exact Or.inl ⟨t', by simp [allTasks, List.mem_of_mem_filter h], rfl,
        Or.inl rfl⟩
    · exact Or.inl ⟨t', by simp [allTasks, h], rfl, Or.inl rfl⟩
    · obtain ⟨a, ha, hupd⟩ := List.mem_filterMap.mp h
      refine Or.inl ⟨a, by simp [allTasks, ha], (monitorUpdate_id _ _ _ _ _ hupd).symm,
        Or.inr ?_⟩
      have hstr : a.status = StreamTaskStatus.streaming := hs.aStreaming a ha
      rcases monitorUpdate_status _ _ _ _ _ hupd with h3 | h3 | h3 <;>
        rw [hstr, h3] <;> rfl

/-- C4: across any step of the scheduler or monitor, the status recorded
for a task id either stays the same or moves along one of the edges
PENDING→STREAMING, PENDING→FAILED, STREAMING→COMPLETED,
STREAMING→FAILED, STREAMING→TIMEOUT. Hence the observed status sequence
of any task is a subsequence of PENDING, STREAMING, one terminal status;
no task re-enters PENDING or STREAMING, and terminal statuses are never
changed. -/
theorem task_status_monotone (maxC timeoutS : Nat) (s s' : StreamerState)
    (hreach : Reachable (initState maxC timeoutS) s) (hstep : Step s s')
    (tid : String) (st st' : StreamTaskStatus)
    (h1 : findStatus s tid = some st) (h2 : findStatus s' tid = some st') :
    st = st' ∨ statusEdge st st' = true := by
  have hs := inv_reachable _ _ _ hreach
  obtain ⟨tf, hfind, hfst⟩ : ∃ tf, (allTasks s).find? (fun t => t.task_id == tid)
      = some tf ∧ tf.status = st := by
    unfold findStatus at h1
    cases hfind : (allTasks s).find? (fun t => t.task_id == tid) with
    | none => rw [hfind] at h1; exact absurd h1 (by simp)
    | some tf =>
      rw [hfind] at h1
      exact ⟨tf, rfl, by simpa using h1⟩
  obtain ⟨tf', hfind', hfst'⟩ : ∃ tf', (allTasks s').find? (fun t => t.task_id == tid)
      = some tf' ∧ tf'.status = st' := by
    unfold findStatus at h2
    cases hfind : (allTasks s').find? (fun t => t.task_id == tid) with
    | none => rw [hfind] at h2; exact absurd h2 (by simp)
    | some tf' =>
      rw [hfind] at h2
      exact ⟨tf', rfl, by simpa using h2⟩
  have hmem : tf ∈ allTasks s := List.mem_of_find?_eq_some hfind
  have hid : tf.task_id = tid := by
    have := List.find?_some hfind
    simpa using this
  have hmem' : tf' ∈ allTasks s' := List.mem_of_find?_eq_some hfind'
  have hid' : tf'.task_id = tid := by
    have := List.find?_some hfind'
    simpa using this
  rcases step_task_transfer hs hstep tf' hmem' with ⟨t, htmem, htid, hstat⟩ | hnot
  · have ht : t = tf := by
      refine List.inj_on_of_nodup_map hs.idsNodup htmem hmem ?_
      rw [htid, hid', hid]
    subst ht
    rw [hfst, hfst'] at hstat
    exact hstat
  · exact absurd (List.mem_map.mpr ⟨tf, hmem, hid.trans hid'.symm⟩) hnot

/-- Witness for C4: submitting a task then starting it moves its status
PENDING→STREAMING, an allowed edge. -/
theorem task_status_monotone_witness :
    StreamTaskStatus.pending = StreamTaskStatus.streaming ∨
      statusEdge StreamTaskStatus.pending StreamTaskStatus.streaming = true := by
  refine task_status_monotone 1 300
    ⟨⟨0, [mkStreamTask "a" "v" none 0]⟩, [], [], 1, 300⟩
    ⟨⟨0, []⟩, [{ mkStreamTask "a" "v" none 0 with
      status := .streaming
      process := some 7
      start_time := some 1 }], [], 1, 300⟩
    ?_ ?_ "a" StreamTaskStatus.pending StreamTaskStatus.streaming ?_ ?_
  · exact Reachable.tail Reachable.refl
      (Step.submit (initState 1 300) "a" "v" none 0 ⟨0, [mkStreamTask "a" "v" none 0]⟩
        (by simp [initState, allTasks, idsOf]) rfl)
  · exact Step.startOk _ (mkStreamTask "a" "v" none 0) [] 7 1 rfl (by decide)
  · rfl
  · rfl

theorem find?_key_eq_none_iff (l : List StreamTask) (tid : String) :
    l.find? (fun t => t.task_id == tid) = none ↔ tid ∉ idsOf l := by
  rw [List.find?_eq_none]
  constructor
  · intro h hmem
    obtain ⟨t, htl, hteq⟩ := List.mem_map.mp hmem
    exact h t htl (by simp [hteq])
  · intro h t htl hbeq
    exact h (List.mem_map.mpr ⟨t, htl, by simpa using hbeq⟩)

/-- C10: in every reachable state the active and completed dicts have
disjoint key sets, so `get_task_status` resolves each id to at most one
record, and it returns `None` exactly when the id is in neither dict. -/
theorem task_maps_disjoint_lookup (maxC timeoutS : Nat) (s : StreamerState)
    (hreach : Reachable (initState maxC timeoutS) s) (tid : String) :
    ¬(tid ∈ idsOf s.active_tasks ∧ tid ∈ idsOf s.completed_tasks) ∧
      (get_task_status s tid = none ↔
        tid ∉ idsOf s.active_tasks ∧ tid ∉ idsOf s.completed_tasks) := by
  have hs := inv_reachable _ _ _ hreach
  constructor
  · rintro ⟨hA, hC⟩
    have h2 := hs.idsNodup
    simp only [allTasks, idsOf_append, List.nodup_append,
      List.disjoint_append_left] at h2
    exact h2.2.2.2 hA hC
  · unfold get_task_status
    cases hA : s.active_tasks.find? (fun t => t.task_id == tid) with
    | some t =>
      have hmem := List.mem_of_find?_eq_some hA
      have hteq : t.task_id = tid := by
        have := List.find?_some hA
        simpa using this
      constructor
      · intro h
        exact absurd h (by simp)
      · rintro ⟨hnA, _⟩
        exact absurd (List.mem_map.mpr ⟨t, hmem, hteq⟩) hnA
    | none =>
      have hAn : tid ∉ idsOf s.active_tasks := (find?_key_eq_none_iff _ _).mp hA
      rw [find?_key_eq_none_iff]
      exact ⟨fun h => ⟨hAn, h⟩, fun h => h.2⟩

/-- Witness for C10 at the freshly initialized streamer. -/
theorem task_maps_disjoint_lookup_witness :
    ¬("x" ∈ idsOf (initState 3 300).active_tasks ∧
        "x" ∈ idsOf (initState 3 300).completed_tasks) ∧
      (get_task_status (initState 3 300) "x" = none ↔
        "x" ∉ idsOf (initState 3 300).active_tasks ∧
          "x" ∉ idsOf (initState 3 300).completed_tasks) :=
  task_maps_disjoint_lookup 3 300 (initState 3 300) Reachable.refl "x"

/-- C9: in one monitor iteration, a STREAMING task whose process is
still running (`poll` returns no exit code) and whose elapsed time
since `start_time` strictly exceeds `stream_timeout` is moved out of
`active_tasks` (releasing its concurrency slot) into `completed_tasks`,
with status TIMEOUT, its end time set to the current time, and the
timeout error message recorded. The process-group SIGTERM/SIGKILL the
code sends is an external side effect on the child process; its
state-visible outcome is exactly this record. -/
theorem monitor_times_out (s : StreamerState) (now : Nat)
    (poll : String → Option Int) (t : StreamTask) (pid st0 : Nat)
    (hmem : t ∈ s.active_tasks)
    (hnodup : (idsOf s.active_tasks).Nodup)
    (hproc : t.process = some pid)
    (hpoll : poll t.task_id = none)
    (hstart : t.start_time = some st0)
    (helapsed : s.stream_timeout < now - st0) :
    t.task_id ∉ idsOf ((monitorStep now poll s).active_tasks) ∧
      { t with
        status := .timeout
        end_time := some now
        error_message :=
          some ("推流超时: " ++ toString s.stream_timeout ++ "秒") }
        ∈ (monitorStep now poll s).completed_tasks := by
  have hupd : monitorUpdate s.stream_timeout now poll t =
      some { t with
        status := .timeout
        end_time := some now
        error_message :=
          some ("推流超时: " ++ toString s.stream_timeout ++ "秒") } := by
    simp only [monitorUpdate, hproc, hpoll, hstart, Option.getD_some]
    rw [if_pos helapsed]
  constructor
  · intro hmem'
    obtain ⟨u, hu, huid⟩ := List.mem_map.mp hmem'
    have huA : u ∈ s.active_tasks := List.mem_of_mem_filter hu
    have hut : u = t := List.inj_on_of_nodup_map hnodup huA hmem huid
    subst hut
    have hcond := (List.mem_filter.mp hu).2
    rw [hupd] at hcond
    simp at hcond
  · refine List.mem_append.mpr (Or.inr ?_)
    exact List.mem_filterMap.mpr ⟨t, hmem, hupd⟩

/-- Witness for C9: one active streaming task with timeout 1 second,
polled at time 5 with its process still running. -/
theorem monitor_times_out_witness :
    "a" ∉ idsOf ((monitorStep 5 (fun _ => none)
        ⟨⟨0, []⟩, [{ mkStreamTask "a" "v" none 0 with
          status := .streaming
          process := some 7
          start_time := some 0 }], [], 3, 1⟩).active_tasks) ∧
      { { mkStreamTask "a" "v" none 0 with
          status := StreamTaskStatus.streaming
          process := some 7
          start_time := some 0 } with
        status := .timeout
        end_time := some 5
        error_message := some ("推流超时: " ++ toString 1 ++ "秒") }
        ∈ (monitorStep 5 (fun _ => none)
            ⟨⟨0, []⟩, [{ mkStreamTask "a" "v" none 0 with
              status := .streaming
              process := some 7
              start_time := some 0 }], [], 3, 1⟩).completed_tasks := by
  have h := monitor_times_out
    ⟨⟨0, []⟩, [{ mkStreamTask "a" "v" none 0 with
      status := .streaming
      process := some 7
      start_time := some 0 }], [], 3, 1⟩ 5 (fun _ => none)
    ({ mkStreamTask "a" "v" none 0 with
      status := .streaming
      process := some 7
      start_time := some 0 }) 7 0
    (by simp) (by simp [idsOf]) rfl rfl rfl (by norm_num)
  simpa using h

/-! ## PipelineOrchestrator: text producer (agent/dh_system.py lines 144-166)
and producer-side stream submission (agent/dh_streamer_async.py lines 128-145). -/

/-- One iteration of `_text_generation_worker`, with the external
script-generation call abstracted to the produced `paragraph`: if
`text_queue.full()` the thread sleeps and retries — nothing is generated
and nothing touches the queue (`false`); otherwise the paragraph is
generated and `put` (which cannot block here: this is the only producer
and the check just found space), `true`. -/
def text_generation_step (q : PyQueue String) (paragraph : String) :
    PyQueue String × Bool :=
  if q.full then (q, false)
  else ({ q with items := q.items ++ [paragraph] }, true)

/-- `add_stream_task`: build the task, `put` it with a timeout; on
`queue.Full` log an error and return `None` (the task is dropped),
otherwise return the task id. -/
def add_stream_task (s : StreamerState) (t : StreamTask) :
    StreamerState × Option String :=
  match s.stream_queue.put? t with
  | some q' => ({ s with stream_queue := q' }, some t.task_id)
  | none => (s, none)

/-- C5, counterexample: with a text queue of capacity 2 already holding
2 units, one producer iteration generates nothing, enqueues nothing and
drops nothing — the producer sleeps and retries instead of dropping a
newly produced unit; and the streamer's `stream_queue` is created with
`maxsize = 0`, i.e. unbounded (it is never full, shown here at 1000
items), contradicting the claim that every queue is bounded. -/
theorem producer_full_queue_no_drop :
    text_generation_step ⟨2, ["a", "b"]⟩ "c" = (⟨2, ["a", "b"]⟩, false) ∧
      (initState 3 300).stream_queue.maxsize = 0 ∧
      PyQueue.full ⟨0, List.replicate 1000 "t"⟩ = false := by
  refine ⟨rfl, rfl, rfl⟩

/-- C5 (amended): the text queue is bounded and its bound is respected —
the producer checks fullness before generating, and when full it leaves
the queue unchanged and produces nothing (sleep-and-retry; no unit is
dropped and the producer never blocks indefinitely); the stream queue is
unbounded (`maxsize = 0`), so `add_stream_task` always succeeds and its
drop-with-logged-error branch (`queue.Full`) is unreachable. -/
theorem producer_backpressure (q : PyQueue String) (p : String)
    (hcap : q.items.length ≤ q.maxsize) (hpos : 0 < q.maxsize)
    (s : StreamerState) (t : StreamTask) (hunb : s.stream_queue.maxsize = 0) :
    (text_generation_step q p).1.items.length ≤ q.maxsize ∧
      ((text_generation_step q p).2 = false → (text_generation_step q p).1 = q) ∧
      (add_stream_task s t).2 = some t.task_id := by
  refine ⟨?_, ?_, ?_⟩
  · unfold text_generation_step
    split_ifs with h
    · exact hcap
    · simp only [PyQueue.full, Bool.and_eq_true, decide_eq_true_eq] at h
      simp only [List.length_append, List.length_singleton]
      omega
  · unfold text_generation_step
    split_ifs with h
    · intro
      rfl
    · intro hfalse
      exact absurd hfalse (by simp)
  · unfold add_stream_task PyQueue.put? PyQueue.full
    rw [hunb]
    simp

/-- Witness for the amended C5 theorem. -/
theorem producer_backpressure_witness :
    (text_generation_step ⟨2, ["a"]⟩ "b").1.items.length ≤ 2 ∧
      ((text_generation_step ⟨2, ["a"]⟩ "b").2 = false →
        (text_generation_step ⟨2, ["a"]⟩ "b").1 = ⟨2, ["a"]⟩) ∧
      (add_stream_task (initState 3 300) (mkStreamTask "x" "v" none 0)).2 =
        some (mkStreamTask "x" "v" none 0).task_id :=
  producer_backpressure ⟨2, ["a"]⟩ "b" (by decide) (by decide) (initState 3 300)
    (mkStreamTask "x" "v" none 0) rfl

/-! ## ActionManager.analyze_text_action (agent/dh_clients.py lines 139-157) -/

/-- The category keys of `self.action_types` / `self.keywords`, in dict
insertion order (Python dicts iterate in insertion order, which is what
`max(action_scores, key=action_scores.get)` and
`list(self.action_types.keys())` traverse). -/
def action_types_order : List String :=
  ["greeting", "pointing", "excited", "explaining", "urging"]

/-- `self.keywords` from `ActionManager.__init__`. -/
def action_keywords : String → List String
  | "greeting" => ["宝宝", "大家", "各位", "亲爱", "朋友们", "宝子"]
  | "pointing" => ["点击", "小黄车", "链接", "右下角", "这里", "看这"]
  | "excited" => ["优惠", "特价", "限时", "抢购", "超值", "划算", "便宜"]
  | "explaining" => ["产品", "质量", "材质", "功能", "效果", "介绍"]
  | "urging" => ["赶紧", "快点", "马上", "立刻", "错过", "数量有限", "售完"]
  | _ => []

/-- The Python substring test `kw in text`, on unicode code points: some
offset of `text` starts with `kw`. -/
def containsSub (text kw : String) : Bool :=
  (List.range (text.toList.length + 1)).any
    (fun i => (text.toList.drop i).take kw.toList.length == kw.toList)

/-- `action_scores[a]`: the number of keywords of category `a` occurring
in the text (`for keyword in keywords: if keyword in text: score += 1`). -/
def action_score (text a : String) : Nat :=
  ((action_keywords a).filter (fun k => containsSub text k)).length

/-- The `action_scores` dict, as an association list in insertion order. -/
def action_scores (text : String) : List (String × Nat) :=
  action_types_order.map (fun a => (a, action_score text a))

/-- Python's `max(..., key=...)` over an association list: the first
entry whose value no later entry strictly exceeds (`max` keeps the
incumbent on ties). -/
def max_by_value : List (String × Nat) → String × Nat
  | [] => ("", 0)
  | kv :: rest => rest.foldl (fun best x => if best.2 < x.2 then x else best) kv

/-- `analyze_text_action(text)`: pick the best-scoring category via
`max`; if its score is 0 (no keyword matched), pick uniformly at random
among all categories — the random draw is the explicit parameter `r`
(`random.choice(xs)` is `xs[r % len(xs)]` for a uniform `r`). -/
def analyze_text_action (text : String) (r : Nat) : String :=
  let best := max_by_value (action_scores text)
  if best.2 = 0 then
    action_types_order.getD (r % action_types_order.length) ""
  else best.1

/-- The tie-breaking behaviour the claim describes (spec's words, for
comparison with the code's `analyze_text_action`): the highest-scoring
category wins, but when several categories tie for the highest score the
result is a uniform random choice among the tied ones, and when nothing
matches a uniform random choice among all categories. -/
def analyze_text_action_claim (text : String) (r : Nat) : String :=
  let m := (max_by_value (action_scores text)).2
  let tied :=
    if m = 0 then action_types_order
    else ((action_scores text).filter (fun kv => kv.2 == m)).map Prod.fst
  tied.getD (r % tied.length) ""

/-- C7, counterexample: on a text hitting exactly one greeting keyword
(`宝宝`) and one pointing keyword (`点击`), the two categories tie at
score 1, yet the code deterministically returns `greeting` (the first
maximal key in dict order) for every random draw — the claimed uniform
choice among the tied categories would return `pointing` for draw 1. -/
theorem analyze_tie_not_random :
    analyze_text_action "宝宝点击" 0 = "greeting" ∧
      analyze_text_action "宝宝点击" 1 = "greeting" ∧
      analyze_text_action_claim "宝宝点击" 1 = "pointing" ∧
      analyze_text_action "宝宝点击" 1 ≠ analyze_text_action_claim "宝宝点击" 1 := by
  refine ⟨by decide, by decide, by decide, by decide⟩

theorem foldl_max_mem (l : List (String × Nat)) (b : String × Nat) :
    l.foldl (fun best x => if best.2 < x.2 then x else best) b ∈ b :: l := by
  induction l generalizing b with
  | nil => simp
  | cons a l ih =>
    simp only [List.foldl_cons]
    have h := ih (if b.2 < a.2 then a else b)
    rcases List.mem_cons.mp h with h1 | h1
    · rw [h1]
      split_ifs <;> simp
    · exact List.mem_cons.mpr (Or.inr (List.mem_cons.mpr (Or.inr h1)))

theorem foldl_max_ge (l : List (String × Nat)) (b : String × Nat) :
    b.2 ≤ (l.foldl (fun best x => if best.2 < x.2 then x else best) b).2 ∧
      ∀ x ∈ l, x.2 ≤ (l.foldl (fun best x => if best.2 < x.2 then x else best) b).2 := by
  induction l generalizing b with
  | nil => simp
  | cons a l ih =>
    simp only [List.foldl_cons]
    obtain ⟨h1, h2⟩ := ih (if b.2 < a.2 then a else b)
    refine ⟨le_trans ?_ h1, ?_⟩
    · split_ifs <;> omega
    · intro x hx
      rcases List.mem_cons.mp hx with rfl | hx
      · refine le_trans ?_ h1
        split_ifs <;> omega
      · exact h2 x hx

theorem max_by_value_spec (l : List (String × Nat)) (hne : l ≠ []) :
    max_by_value l ∈ l ∧ ∀ x ∈ l, x.2 ≤ (max_by_value l).2 := by
  cases l with
  | nil => exact absurd rfl hne
  | cons kv rest =>
    refine ⟨foldl_max_mem rest kv, ?_⟩
    intro x hx
    obtain ⟨h1, h2⟩ := foldl_max_ge rest kv
    rcases List.mem_cons.mp hx with rfl | hx
    · exact h1
    · exact h2 x hx

/-- C7 (amended): `analyze_text_action` returns a highest-scoring
category; whenever any keyword matched (`max score > 0`) the result is
deterministic — the first maximal category in the fixed order greeting,
pointing, excited, explaining, urging — independent of the random draw;
the uniform random choice happens only when no keyword matched at all,
and then ranges over all five categories, not over tied ones. -/
theorem analyze_text_action_char (text : String) (r r' : Nat) :
    (max_by_value (action_scores text) ∈ action_scores text ∧
      ∀ kv ∈ action_scores text, kv.2 ≤ (max_by_value (action_scores text)).2) ∧
    (0 < (max_by_value (action_scores text)).2 →
      analyze_text_action text r = (max_by_value (action_scores text)).1 ∧
      analyze_text_action text r = analyze_text_action text r') ∧
    ((max_by_value (action_scores text)).2 = 0 →
      analyze_text_action text r =
        action_types_order.getD (r % action_types_order.length) "") := by
  refine ⟨max_by_value_spec _ (by simp [action_scores, action_types_order]), ?_, ?_⟩
  · intro h
    unfold analyze_text_action
    rw [if_neg (by omega), if_neg (by omega)]
    exact ⟨rfl, rfl⟩
  · intro h
    unfold analyze_text_action
    rw [if_pos h]

/-- Witness for the amended C7 theorem on a concrete text. -/
theorem analyze_text_action_char_witness :
    (max_by_value (action_scores "宝宝") ∈ action_scores "宝宝" ∧
      ∀ kv ∈ action_scores "宝宝", kv.2 ≤ (max_by_value (action_scores "宝宝")).2) ∧
    (0 < (max_by_value (action_scores "宝宝")).2 →
      analyze_text_action "宝宝" 0 = (max_by_value (action_scores "宝宝")).1 ∧
      analyze_text_action "宝宝" 0 = analyze_text_action "宝宝" 1) ∧
    ((max_by_value (action_scores "宝宝")).2 = 0 →
      analyze_text_action "宝宝" 0 =
        action_types_order.getD (0 % action_types_order.length) "") :=
  analyze_text_action_char "宝宝" 0 1
